import Mathlib

/-!
Verification of the Φ-mode synthesis dispatcher (`src/js/soundlab-phi.js`).

The module-level mutable state (`phiOscillators`, `phiAuxNodes`, `phiTimeout`,
`lastParams`), the DOM fields the code touches, and the audio-engine
collaborators are embedded as explicit Lean state passed through pure
functions.  JavaScript numbers are embedded as `JNum` (a rational together
with the non-finite values `NaN`, `±Infinity`); JavaScript values crossing
the interfaces (`freqRange`, `driveCurve`, field values) are embedded as
`JVal`.  The collaborators from `soundlab-utils.js` and
`soundlab-audio-core.js` are not part of the sources; where a claim needs
them they are modelled from the spec (see the doc comments on `PHI`,
`DriveMap` and `pickFreqInRange`).
-/

/-- Embedding of a JavaScript number: a finite rational or one of the
IEEE non-finite values.  Signed zero is not distinguished (no code path in
this module depends on it). -/
inductive JNum where
  | fin (q : ℚ)
  | nan
  | posInf
  | negInf
deriving DecidableEq, Repr

namespace JNum

/-- `Number.isFinite`. -/
def isFinite : JNum → Bool
  | fin _ => true
  | _ => false

/-- The JavaScript comparison `x > 0` (false on `NaN`). -/
def gtZero : JNum → Bool
  | fin q => decide (0 < q)
  | posInf => true
  | _ => false

/-- JavaScript multiplication on the embedded numbers. -/
def mul : JNum → JNum → JNum
  | nan, _ => nan
  | _, nan => nan
  | fin a, fin b => fin (a * b)
  | fin a, posInf => if 0 < a then posInf else if a < 0 then negInf else nan
  | fin a, negInf => if 0 < a then negInf else if a < 0 then posInf else nan
  | posInf, fin b => if 0 < b then posInf else if b < 0 then negInf else nan
  | negInf, fin b => if 0 < b then negInf else if b < 0 then posInf else nan
  | posInf, posInf => posInf
  | posInf, negInf => negInf
  | negInf, posInf => negInf
  | negInf, negInf => posInf

/-- JavaScript division on the embedded numbers (division of a nonzero
finite number by zero yields a signed infinity; `0/0` is `NaN`). -/
def div : JNum → JNum → JNum
  | nan, _ => nan
  | _, nan => nan
  | fin a, fin b =>
      if b ≠ 0 then fin (a / b)
      else if 0 < a then posInf else if a < 0 then negInf else nan
  | fin _, posInf => fin 0
  | fin _, negInf => fin 0
  | posInf, fin b => if 0 ≤ b then posInf else negInf
  | negInf, fin b => if 0 ≤ b then negInf else posInf
  | posInf, posInf => nan
  | posInf, negInf => nan
  | negInf, posInf => nan
  | negInf, negInf => nan

/-- `Math.min` (propagates `NaN`). -/
def jmin : JNum → JNum → JNum
  | nan, _ => nan
  | _, nan => nan
  | fin a, fin b => fin (min a b)
  | negInf, _ => negInf
  | _, negInf => negInf
  | posInf, y => y
  | x, posInf => x

/-- `Math.max` (propagates `NaN`). -/
def jmax : JNum → JNum → JNum
  | nan, _ => nan
  | _, nan => nan
  | fin a, fin b => fin (max a b)
  | posInf, _ => posInf
  | _, posInf => posInf
  | negInf, y => y
  | x, negInf => x

end JNum

/-- String rendering of an embedded number as a JavaScript template literal
would coerce it.  Exact host digit formatting of non-integral values is not
modelled bit-for-bit; no claim depends on the digits. -/
def jnumStr : JNum → String
  | .fin q => if q.den = 1 then toString q.num else toString q
  | .nan => "NaN"
  | .posInf => "Infinity"
  | .negInf => "-Infinity"

/-- Embedding of the JavaScript values flowing through this module's
interfaces: numbers, strings, arrays and `undefined` (standing for any
absent/nullish value). -/
inductive JVal where
  | num (n : JNum)
  | str (s : String)
  | arr (xs : List JVal)
  | undef
deriving Repr

/-- JavaScript truthiness of an embedded value. -/
def truthy : JVal → Bool
  | .num (.fin q) => decide (q ≠ 0)
  | .num .nan => false
  | .num _ => true
  | .str s => decide (s ≠ "")
  | .arr _ => true
  | .undef => false

/-- `Array.isArray`. -/
def isArrayJ : JVal → Bool
  | .arr _ => true
  | _ => false

mutual

/-- Template-literal string coercion of an embedded value. -/
def jvalStr : JVal → String
  | .num n => jnumStr n
  | .str s => s
  | .arr xs => jvalListStr xs
  | .undef => "undefined"

/-- Array-to-string coercion: elements joined by commas. -/
def jvalListStr : List JVal → String
  | [] => ""
  | [v] => jvalStr v
  | v :: w :: t => jvalStr v ++ "," ++ jvalListStr (w :: t)

end

/-- Modelled from the spec: the golden-ratio constant `PHI` exported by
`soundlab-utils.js`, which is not among the sources.  The spec (§Glossary)
gives "the constant ≈1.618"; we use the IEEE-double value of (1+√5)/2 as an
exact rational. -/
def PHI : ℚ := 1.618033988749895

/-- Modelled from the spec: the type of `mapDriveCurve` from
`soundlab-utils.js`, which is not among the sources.  The spec describes it
only as "a named response-shaping function mapping a normalized position
(0..1) to an amplitude multiplier", so it is kept abstract and every
definition that needs it takes it as an argument. -/
abbrev DriveMap := JVal → ℚ → ℚ

/-- Modelled from the spec: `pickFreqInRange` from `soundlab-utils.js`,
which is not among the sources.  Per spec §4.2/§9 it clamps the desired
frequency into `[rangeLow, rangeHigh]` ("pick a deterministic clamp (e.g.,
`max(low, min(high, value))`)").  On a range that is not a two-element
numeric array the spec gives no behaviour and the desired value is returned
unchanged (no claim exercises that branch). -/
def pickFreqInRange (desired : JNum) (range : JVal) : JNum :=
  match range with
  | .arr [.num lo, .num hi] => JNum.jmax lo (JNum.jmin hi desired)
  | _ => desired

/-- `SynthParams` as read from the external parameter source
(`getParams()` in `soundlab-utils.js`). -/
structure SynthParams where
  baseFreq : JNum
  duration : JNum
  driveCurve : JVal
  freqRange : JVal

/-- Scheduling events recorded against a gain node's `gain` AudioParam. -/
inductive GainEvent where
  | cancelFrom (t : ℚ)
  | setValue (v : JNum) (t : ℚ)
  | linearRamp (v : JNum) (t : ℚ)
deriving DecidableEq, Repr

/-- Connection targets occurring in this module's graphs. -/
inductive Target where
  | lowShelf
  | gainNode (id : Nat)
  | oscFrequency (id : Nat)
deriving DecidableEq, Repr

/-- An oscillator handle.  `stopThrows` / `disconnectThrows` embed the
engine-side possibility that `stop()` or `disconnect()` raises (e.g. a
never-started or already-stopped node); the teardown code must suppress
such errors. -/
structure OscNode where
  id : Nat
  type : String
  freqSets : List (JNum × ℚ)
  startedAt : Option ℚ
  conns : List Target
  stopThrows : Bool
  disconnectThrows : Bool

/-- A gain-node handle.  `phiScale` is the `__phiScale` expando property:
`some` iff a number has been assigned. -/
structure GainNode where
  id : Nat
  phiScale : Option ℚ
  gainEvents : List GainEvent
  conns : List Target
  disconnectThrows : Bool

/-- `osc.stop()`: raises iff the engine-side flag says so. -/
def oscStop (o : OscNode) : Except String Unit :=
  if o.stopThrows then .error "InvalidStateError" else .ok ()

/-- `osc.disconnect()`. -/
def oscDisconnect (o : OscNode) : Except String Unit :=
  if o.disconnectThrows then .error "InvalidAccessError" else .ok ()

/-- `node.disconnect()` on an auxiliary node. -/
def auxDisconnect (g : GainNode) : Except String Unit :=
  if g.disconnectThrows then .error "InvalidAccessError" else .ok ()

/-- The body of the generator-teardown loop in `stopPhiSynthesis`:
`try { osc.stop(); osc.disconnect(); } catch (e) {}` — an error from
`stop` skips `disconnect`, and every error is swallowed. -/
def tryTeardownOsc (o : OscNode) : Unit :=
  match oscStop o with
  | .error _ => ()
  | .ok _ =>
    match oscDisconnect o with
    | .error _ => ()
    | .ok _ => ()

/-- The body of the auxiliary-node teardown loop:
`try { node.disconnect(); } catch (e) {}`. -/
def tryTeardownAux (g : GainNode) : Unit :=
  match auxDisconnect g with
  | .error _ => ()
  | .ok _ => ()

/-- The one-shot auto-stop timer armed by `runPhiMode`
(`setTimeout(..., runDuration * 1000)`): its delay in milliseconds and the
mode label captured by the callback closure. -/
structure PendingTimer where
  delayMs : ℚ
  label : String
deriving DecidableEq, Repr

/-- The DOM fields this module reads or writes.  `none` means the element
is absent; for input fields, `some v` is the element's current `value`
string; for buttons, `some b` is the element's `disabled` flag. -/
structure DomState where
  status : Option String
  stopBtnDisabled : Option Bool
  restoreBtnDisabled : Option Bool
  baseField : Option String
  durationField : Option String
  driveCurveField : Option String
  freqRangeField : Option String

/-- The module-level mutable state of `soundlab-phi.js`, together with the
DOM it touches and the observable external effects (alerts, console
warnings, console logs) and the engine's fresh-node-id counter. -/
structure PhiState where
  phiOscillators : List OscNode
  phiAuxNodes : List GainNode
  phiTimeout : Option PendingTimer
  lastParams : Option SynthParams
  dom : DomState
  audioPlaying : Bool
  nextId : Nat
  alerts : List String
  warnings : List String
  logs : List String

/-- The audio-core collaborators as visible to one `runPhiMode` turn:
whether `getAudioContext()` is truthy, whether `getFilters().lowShelf` is
truthy, the context clock, and the parameter source's current answer. -/
structure AudioEnv where
  hasContext : Bool
  hasLowShelf : Bool
  currentTime : ℚ
  params : SynthParams

/-- `stopPhiSynthesis` (soundlab-phi.js lines 25–45): tear down every
registered generator and auxiliary node with all errors suppressed, clear
both registries, and cancel-and-null the pending auto-stop timer.  Total
by construction because every engine call is wrapped in a catch. -/
def stopPhiSynthesis (s : PhiState) : PhiState :=
  let _ := s.phiOscillators.map tryTeardownOsc
  let s := { s with phiOscillators := [] }
  let _ := s.phiAuxNodes.map tryTeardownAux
  let s := { s with phiAuxNodes := [] }
  if s.phiTimeout.isSome then { s with phiTimeout := none } else s

/-- `safeDuration` (line 49, and the per-branch `runDuration`
computations): `duration` when finite and positive, else `3`. -/
def safeDurQ (d : JNum) : ℚ :=
  match d with
  | .fin q => if 0 < q then q else 3
  | _ => 3

/-- `attack = Math.max(0.05, Math.min(safeDuration * 0.2, 0.5))`
(line 50). -/
def attackOf (safeDuration : ℚ) : ℚ :=
  max 0.05 (min (safeDuration * 0.2) 0.5)

/-- `sustainTime = Math.max(safeDuration - attack * 2, 0)` (line 51). -/
def sustainOf (safeDuration : ℚ) : ℚ :=
  max (safeDuration - attackOf safeDuration * 2) 0

/-- `applyEnvelope` (lines 47–69): schedule the 4-breakpoint amplitude
curve on the node's gain param.  `ctxTime` is `ctx.currentTime` when the
clock argument is a context with a numeric clock, `none` otherwise. -/
def applyEnvelope (mdc : DriveMap) (g : GainNode) (duration : JNum)
    (driveCurve : JVal) (now : ℚ) (ctxTime : Option ℚ) : GainNode :=
  let scale := g.phiScale.getD 1
  let safeDuration := safeDurQ duration
  let attack := attackOf safeDuration
  let sustainTime := sustainOf safeDuration
  let peak := mdc driveCurve 1 * scale
  let sustainLevel := mdc driveCurve 0.5 * scale
  let ctxNow := ctxTime.getD now
  let start := max now ctxNow
  let attackEnd := start + attack
  let sustainEnd := attackEnd + sustainTime
  let releaseEnd := start + safeDuration
  let evs :=
    [GainEvent.cancelFrom start,
     GainEvent.setValue (.fin 0) start,
     GainEvent.linearRamp (.fin peak) attackEnd]
    ++ (if 0 < sustainTime then [GainEvent.linearRamp (.fin sustainLevel) sustainEnd] else [])
    ++ [GainEvent.linearRamp (.fin 0) releaseEnd]
  { g with gainEvents := g.gainEvents ++ evs }

/-- The per-branch "safe base frequency": `baseFreq > 0 ? baseFreq : 220`. -/
def jSafeBase (b : JNum) : JNum :=
  if b.gtZero then b else .fin 220

/-- The per-branch range default: `freqRange || [lo, hi]`. -/
def rangeOr (fr : JVal) (lo hi : JNum) : JVal :=
  if truthy fr then fr else .arr [.num lo, .num hi]

/-- One simple voice as built by the Tone/Interval/Harmonic branches:
an oscillator at the clamped frequency feeding an envelope gain (with the
given `__phiScale`) into the output filter; node ids `n` (oscillator) and
`n + 1` (gain) reflect creation order. -/
def mkVoice (mdc : DriveMap) (driveCurve : JVal) (range : JVal)
    (runDuration : ℚ) (now : ℚ) (scale : ℚ) (desired : JNum) (n : Nat) :
    OscNode × GainNode :=
  let freq := pickFreqInRange desired range
  let gain0 : GainNode :=
    { id := n + 1, phiScale := some scale, gainEvents := [],
      conns := [.lowShelf], disconnectThrows := false }
  let gain := applyEnvelope mdc gain0 (.fin runDuration) driveCurve now (some now)
  let osc : OscNode :=
    { id := n, type := "sine", freqSets := [(freq, now)], startedAt := some now,
      conns := [.gainNode (n + 1)], stopThrows := false, disconnectThrows := false }
  (osc, gain)

/-- The `'phi_tone'` branch (lines 93–116). -/
def buildTone (mdc : DriveMap) (p : SynthParams) (now : ℚ) (n : Nat) :
    List OscNode × List GainNode × ℚ × String :=
  let safeBase := jSafeBase p.baseFreq
  let range := rangeOr p.freqRange safeBase (safeBase.mul (.fin PHI))
  let runDuration := safeDurQ p.duration
  let v := mkVoice mdc p.driveCurve range runDuration now 0.6
    (safeBase.mul (.fin PHI)) n
  ([v.1], [v.2], runDuration, "Φ Tone")

/-- The `'phi_AM'` branch (lines 117–156): carrier and modulator
oscillators, an envelope gain on the carrier, and a depth gain routing the
modulator into the carrier's frequency input. -/
def buildAM (mdc : DriveMap) (p : SynthParams) (now : ℚ) (n : Nat) :
    List OscNode × List GainNode × ℚ × String :=
  let safeBase := jSafeBase p.baseFreq
  let range := rangeOr p.freqRange safeBase (safeBase.mul (.fin PHI))
  let runDuration := safeDurQ p.duration
  let carrierFreq := pickFreqInRange safeBase range
  let modFreq := pickFreqInRange (safeBase.div (.fin PHI)) range
  let carrier : OscNode :=
    { id := n, type := "sine", freqSets := [(carrierFreq, now)],
      startedAt := some now, conns := [.gainNode (n + 2)],
      stopThrows := false, disconnectThrows := false }
  let modulator : OscNode :=
    { id := n + 1, type := "sine", freqSets := [(modFreq, now)],
      startedAt := some now, conns := [.gainNode (n + 3)],
      stopThrows := false, disconnectThrows := false }
  let voiceGain0 : GainNode :=
    { id := n + 2, phiScale := some (mdc p.driveCurve 0.8 * 0.6),
      gainEvents := [], conns := [.lowShelf], disconnectThrows := false }
  let voiceGain := applyEnvelope mdc voiceGain0 (.fin runDuration) p.driveCurve now (some now)
  let depth := ((JNum.fin (mdc p.driveCurve 0.6)).mul carrierFreq).mul (.fin 0.25)
  let modGain : GainNode :=
    { id := n + 3, phiScale := none, gainEvents := [GainEvent.setValue depth now],
      conns := [.oscFrequency n], disconnectThrows := false }
  ([carrier, modulator], [voiceGain, modGain], runDuration, "Φ AM")

/-- The `'phi_FM'` branch (lines 157–196). -/
def buildFM (mdc : DriveMap) (p : SynthParams) (now : ℚ) (n : Nat) :
    List OscNode × List GainNode × ℚ × String :=
  let safeBase := jSafeBase p.baseFreq
  let range := rangeOr p.freqRange safeBase (safeBase.mul (.fin PHI))
  let runDuration := safeDurQ p.duration
  let carrierFreq := pickFreqInRange safeBase range
  let modFreq := pickFreqInRange (safeBase.mul (.fin PHI)) range
  let carrier : OscNode :=
    { id := n, type := "sine", freqSets := [(carrierFreq, now)],
      startedAt := some now, conns := [.gainNode (n + 2)],
      stopThrows := false, disconnectThrows := false }
  let modulator : OscNode :=
    { id := n + 1, type := "sine", freqSets := [(modFreq, now)],
      startedAt := some now, conns := [.gainNode (n + 3)],
      stopThrows := false, disconnectThrows := false }
  let voiceGain0 : GainNode :=
    { id := n + 2, phiScale := some (mdc p.driveCurve 0.9 * 0.6),
      gainEvents := [], conns := [.lowShelf], disconnectThrows := false }
  let voiceGain := applyEnvelope mdc voiceGain0 (.fin runDuration) p.driveCurve now (some now)
  let depth := ((JNum.fin (mdc p.driveCurve 0.7)).mul modFreq).mul (.fin 0.35)
  let fmGain : GainNode :=
    { id := n + 3, phiScale := none, gainEvents := [GainEvent.setValue depth now],
      conns := [.oscFrequency n], disconnectThrows := false }
  ([carrier, modulator], [voiceGain, fmGain], runDuration, "Φ FM")

/-- The `'phi_interval'` branch (lines 197–224): four voices at
`safeBase * Φ^0..3`, envelope-gain scale `mapDriveCurve(curve,(i+1)/4)*0.4`. -/
def buildInterval (mdc : DriveMap) (p : SynthParams) (now : ℚ) (n : Nat) :
    List OscNode × List GainNode × ℚ × String :=
  let safeBase := jSafeBase p.baseFreq
  let range := rangeOr p.freqRange safeBase (safeBase.mul (.fin (PHI ^ 3)))
  let runDuration := safeDurQ p.duration
  let c := p.driveCurve
  let v0 := mkVoice mdc c range runDuration now (mdc c (1 / 4) * 0.4)
    (safeBase.mul (.fin 1)) n
  let v1 := mkVoice mdc c range runDuration now (mdc c (2 / 4) * 0.4)
    (safeBase.mul (.fin PHI)) (n + 2)
  let v2 := mkVoice mdc c range runDuration now (mdc c (3 / 4) * 0.4)
    (safeBase.mul (.fin (PHI ^ 2))) (n + 4)
  let v3 := mkVoice mdc c range runDuration now (mdc c (4 / 4) * 0.4)
    (safeBase.mul (.fin (PHI ^ 3))) (n + 6)
  ([v0.1, v1.1, v2.1, v3.1], [v0.2, v1.2, v2.2, v3.2], runDuration,
    "Φ Interval Stack")

/-- The per-voice amplitude scale of the Harmonic Stack branch (lines
241–242): `mapDriveCurve(driveCurve, 1 / i) * (1 / PHI^(i-1)) * 0.5`. -/
def harmonicScale (mdc : DriveMap) (c : JVal) (i : ℕ) : ℚ :=
  mdc c (1 / (i : ℚ)) * (1 / PHI ^ (i - 1)) * 0.5

/-- The `'phi_harmonic'` branch (lines 225–252): eight voices at
`safeBase * 1..8` with `harmonicScale` amplitude scales. -/
def buildHarmonic (mdc : DriveMap) (p : SynthParams) (now : ℚ) (n : Nat) :
    List OscNode × List GainNode × ℚ × String :=
  let safeBase := jSafeBase p.baseFreq
  let range := rangeOr p.freqRange safeBase (safeBase.mul (.fin 8))
  let runDuration := safeDurQ p.duration
  let c := p.driveCurve
  let v1 := mkVoice mdc c range runDuration now (harmonicScale mdc c 1)
    (safeBase.mul (.fin 1)) n
  let v2 := mkVoice mdc c range runDuration now (harmonicScale mdc c 2)
    (safeBase.mul (.fin 2)) (n + 2)
  let v3 := mkVoice mdc c range runDuration now (harmonicScale mdc c 3)
    (safeBase.mul (.fin 3)) (n + 4)
  let v4 := mkVoice mdc c range runDuration now (harmonicScale mdc c 4)
    (safeBase.mul (.fin 4)) (n + 6)
  let v5 := mkVoice mdc c range runDuration now (harmonicScale mdc c 5)
    (safeBase.mul (.fin 5)) (n + 8)
  let v6 := mkVoice mdc c range runDuration now (harmonicScale mdc c 6)
    (safeBase.mul (.fin 6)) (n + 10)
  let v7 := mkVoice mdc c range runDuration now (harmonicScale mdc c 7)
    (safeBase.mul (.fin 7)) (n + 12)
  let v8 := mkVoice mdc c range runDuration now (harmonicScale mdc c 8)
    (safeBase.mul (.fin 8)) (n + 14)
  ([v1.1, v2.1, v3.1, v4.1, v5.1, v6.1, v7.1, v8.1],
   [v1.2, v2.2, v3.2, v4.2, v5.2, v6.2, v7.2, v8.2], runDuration,
   "Φ Harmonic")

/-- The five recognized mode names of the `switch` in `runPhiMode`. -/
def phiModeNames : List String :=
  ["phi_tone", "phi_AM", "phi_FM", "phi_interval", "phi_harmonic"]

/-- The mode dispatch of `runPhiMode`'s `switch` (lines 92–256): `some`
of the built topology for a recognized mode, `none` for the default
branch. -/
def modeBuild (mdc : DriveMap) (p : SynthParams) (now : ℚ) (n : Nat)
    (mode : String) : Option (List OscNode × List GainNode × ℚ × String) :=
  if mode = "phi_tone" then some (buildTone mdc p now n)
  else if mode = "phi_AM" then some (buildAM mdc p now n)
  else if mode = "phi_FM" then some (buildFM mdc p now n)
  else if mode = "phi_interval" then some (buildInterval mdc p now n)
  else if mode = "phi_harmonic" then some (buildHarmonic mdc p now n)
  else none

/-- `runDuration.toFixed(2)`.  Host rounding of exotic values is not
modelled bit-for-bit; no claim depends on the digits. -/
def toFixed2 (q : ℚ) : String :=
  let n : ℤ := ⌊q * 100 + 1 / 2⌋
  let ip := n / 100
  let fp := (n % 100).toNat
  toString ip ++ "." ++ (if fp < 10 then "0" else "") ++ toString fp

/-- The common tail of `runPhiMode` after a recognized branch (lines
258–285): recompute the safe run duration, mark playing, enable the stop
button, write the running status, snapshot `lastParams`, enable the
restore button, clear any pending timer and arm the auto-stop timer for
`runDuration * 1000` milliseconds. -/
def finishRun (s : PhiState) (branchDuration : ℚ) (modeLabel : String)
    (p : SynthParams) : PhiState :=
  let runDuration := if 0 < branchDuration then branchDuration else 3
  let s := { s with audioPlaying := true }
  let s := { s with dom := { s.dom with
    stopBtnDisabled := s.dom.stopBtnDisabled.map fun _ => false } }
  let s := { s with dom := { s.dom with
    status := s.dom.status.map fun _ =>
      "Running " ++ modeLabel ++ " for " ++ toFixed2 runDuration ++ "s" } }
  let s := { s with lastParams := some p }
  let s := { s with dom := { s.dom with
    restoreBtnDisabled := s.dom.restoreBtnDisabled.map fun _ => false } }
  let s := if s.phiTimeout.isSome then { s with phiTimeout := none } else s
  { s with phiTimeout := some { delayMs := runDuration * 1000, label := modeLabel } }

/-- `runPhiMode` (lines 71–286).  Guard alerts leave the state otherwise
untouched; on any other path the prior run is torn down first; a
recognized branch then builds its topology and hands off to the lifecycle
tail, while the default branch only logs a warning. -/
def runPhiMode (mdc : DriveMap) (env : AudioEnv) (mode : String)
    (s : PhiState) : PhiState :=
  if env.hasContext = false then
    { s with alerts := s.alerts ++ ["Please click START AUDIO first!"] }
  else if env.hasLowShelf = false then
    { s with alerts := s.alerts ++ ["Audio chain not ready."] }
  else
    let s1 := stopPhiSynthesis s
    let now := env.currentTime
    match modeBuild mdc env.params now s1.nextId mode with
    | none => { s1 with warnings := s1.warnings ++ ["Unknown phi mode: " ++ mode] }
    | some (oscs, gains, branchDuration, modeLabel) =>
      let s2 := { s1 with
        phiOscillators := s1.phiOscillators ++ oscs,
        phiAuxNodes := s1.phiAuxNodes ++ gains,
        nextId := s1.nextId + oscs.length + gains.length }
      finishRun s2 branchDuration modeLabel env.params

/-- The auto-stop timer callback (lines 281–285) firing on the state it
was armed against: tear everything down, mark not playing, and write the
completion status if the status element exists. -/
def fireTimeout (s : PhiState) : PhiState :=
  match s.phiTimeout with
  | none => s
  | some t =>
    let s1 := stopPhiSynthesis s
    let s1 := { s1 with audioPlaying := false }
    { s1 with dom := { s1.dom with
      status := s1.dom.status.map fun _ => t.label ++ " complete" } }

/-- The formatted range written by `restoreLastParams`
(`` `${freqRange[0]}-${freqRange[1]}` ``); only evaluated under an
`Array.isArray` guard, so the non-array branch is unreachable there. -/
def fmtRange : JVal → String
  | .arr xs => jvalStr (xs.getD 0 .undef) ++ "-" ++ jvalStr (xs.getD 1 .undef)
  | _ => "undefined-undefined"

/-- `restoreLastParams` (lines 288–314). -/
def restoreLastParams (s : PhiState) : PhiState :=
  match s.lastParams with
  | none => s
  | some p =>
    let d := s.dom
    let d := if d.baseField.isSome && p.baseFreq.isFinite then
        { d with baseField := some (jnumStr p.baseFreq) } else d
    let d := if d.durationField.isSome && p.duration.isFinite then
        { d with durationField := some (jnumStr p.duration) } else d
    let d := if d.driveCurveField.isSome && truthy p.driveCurve then
        { d with driveCurveField := some (jvalStr p.driveCurve) } else d
    let d := if d.freqRangeField.isSome && isArrayJ p.freqRange then
        { d with freqRangeField := some (fmtRange p.freqRange) } else d
    let d := { d with status := d.status.map fun _ => "Φ parameters restored" }
    { s with dom := d }

/-- The range rendering of `diagnosticParamsLog` (line 318):
`Array.isArray(freqRange) && freqRange.length === 2` selects the
`"lo-hi"` rendering, everything else gives `"N/A"`. -/
def rangeText (fr : JVal) : String :=
  match fr with
  | .arr [a, b] => jvalStr a ++ "-" ++ jvalStr b
  | _ => "N/A"

/-- The one-line status summary written by `diagnosticParamsLog`
(line 331). -/
def diagLine (p : SynthParams) : String :=
  let baseText := if p.baseFreq.isFinite then jnumStr p.baseFreq else "N/A"
  let durationText := if p.duration.isFinite then jnumStr p.duration else "N/A"
  "Diagnostic → base: " ++ baseText ++ " Hz | curve: " ++
    jvalStr p.driveCurve ++ " | range: " ++ rangeText p.freqRange ++
    " | duration: " ++ durationText ++ " s"

/-- `diagnosticParamsLog` (lines 316–333): read the current parameters,
emit them to the console, and write the formatted summary to the status
element if it exists. -/
def diagnosticParamsLog (env : AudioEnv) (s : PhiState) : PhiState :=
  let p := env.params
  let s := { s with logs := s.logs ++ ["Diagnostic params"] }
  { s with dom := { s.dom with status := s.dom.status.map fun _ => diagLine p } }

/-- Registered generator count per recognized mode (§4.2 table). -/
def phiOscCount (mode : String) : Nat :=
  if mode = "phi_tone" then 1
  else if mode = "phi_AM" then 2
  else if mode = "phi_FM" then 2
  else if mode = "phi_interval" then 4
  else if mode = "phi_harmonic" then 8
  else 0

/-- Registered auxiliary-node count per recognized mode. -/
def phiAuxCount (mode : String) : Nat :=
  if mode = "phi_tone" then 1
  else if mode = "phi_AM" then 2
  else if mode = "phi_FM" then 2
  else if mode = "phi_interval" then 4
  else if mode = "phi_harmonic" then 8
  else 0

/-- The user-facing label each recognized branch assigns to `modeLabel`. -/
def phiModeLabel (mode : String) : String :=
  if mode = "phi_tone" then "Φ Tone"
  else if mode = "phi_AM" then "Φ AM"
  else if mode = "phi_FM" then "Φ FM"
  else if mode = "phi_interval" then "Φ Interval Stack"
  else if mode = "phi_harmonic" then "Φ Harmonic"
  else mode

/-- Identity drive map, a concrete admissible instance of the abstract
`mapDriveCurve` collaborator, used to instantiate witnesses. -/
def mdcId : DriveMap := fun _ x => x

/-- A concrete valid parameter set (`baseFreq=220, duration=2,
driveCurve='linear'`, no range). -/
def params0 : SynthParams :=
  { baseFreq := .fin 220, duration := .fin 2, driveCurve := .str "linear",
    freqRange := .undef }

/-- A DOM in which every element this module touches exists. -/
def dom0 : DomState :=
  { status := some "", stopBtnDisabled := some true,
    restoreBtnDisabled := some true, baseField := some "",
    durationField := some "", driveCurveField := some "",
    freqRangeField := some "" }

/-- A concrete available environment. -/
def env0 : AudioEnv :=
  { hasContext := true, hasLowShelf := true, currentTime := 0, params := params0 }

/-- The idle initial module state. -/
def st0 : PhiState :=
  { phiOscillators := [], phiAuxNodes := [], phiTimeout := none,
    lastParams := none, dom := dom0, audioPlaying := false, nextId := 0,
    alerts := [], warnings := [], logs := [] }

/-- A registered oscillator handle, as left by a previous run. -/
def osc0 : OscNode :=
  { id := 0, type := "sine", freqSets := [], startedAt := none, conns := [],
    stopThrows := false, disconnectThrows := false }

/-- A state in which a prior run is still live: one registered oscillator
and an armed auto-stop timer. -/
def stRunning : PhiState :=
  { st0 with
    phiOscillators := [osc0], phiTimeout := some ⟨2000, "Φ Tone"⟩,
    nextId := 1 }

/-- Parameters whose `freqRange` is a two-element array of non-numeric
values. -/
def params9 : SynthParams :=
  { params0 with freqRange := .arr [.str "a", .str "b"] }

/-- Environment carrying `params9`. -/
def env9 : AudioEnv := { env0 with params := params9 }

/-- A state holding a `lastParams` snapshot. -/
def stLP : PhiState := { st0 with lastParams := some params0 }

/-- A fresh gain node carrying a numeric `__phiScale`. -/
def gain0w : GainNode :=
  { id := 0, phiScale := some 1, gainEvents := [], conns := [],
    disconnectThrows := false }

lemma stopPhiSynthesis_eq (s : PhiState) :
    stopPhiSynthesis s =
      { s with phiOscillators := [], phiAuxNodes := [], phiTimeout := none } := by
  obtain ⟨oscs, aux, tmo, lp, dom, ap, ni, al, wa, lg⟩ := s
  cases tmo <;> simp [stopPhiSynthesis]

lemma safeDurQ_pos (d : JNum) : 0 < safeDurQ d := by
  cases d <;> simp [safeDurQ]
  split_ifs with h
  · exact h
  · norm_num

lemma finishRun_eq (s : PhiState) (bd : ℚ) (lbl : String) (p : SynthParams) :
    finishRun s bd lbl p = { s with
      audioPlaying := true,
      lastParams := some p,
      dom := { s.dom with
        stopBtnDisabled := s.dom.stopBtnDisabled.map fun _ => false,
        status := s.dom.status.map fun _ =>
          "Running " ++ lbl ++ " for " ++ toFixed2 (if 0 < bd then bd else 3) ++ "s",
        restoreBtnDisabled := s.dom.restoreBtnDisabled.map fun _ => false },
      phiTimeout := some ⟨(if 0 < bd then bd else 3) * 1000, lbl⟩ } := by
  obtain ⟨oscs, aux, tmo, lp, ⟨st, sb, rb, bf, df, dc, fr⟩, ap, ni, al, wa, lg⟩ := s
  cases tmo <;> simp [finishRun]

lemma runPhiMode_recognized (mdc : DriveMap) (env : AudioEnv) (mode : String)
    (s : PhiState) (hc : env.hasContext = true) (hl : env.hasLowShelf = true)
    (b : List OscNode × List GainNode × ℚ × String)
    (hb : modeBuild mdc env.params env.currentTime s.nextId mode = some b) :
    runPhiMode mdc env mode s =
      finishRun { s with
        phiOscillators := b.1, phiAuxNodes := b.2.1, phiTimeout := none,
        nextId := s.nextId + b.1.length + b.2.1.length } b.2.2.1 b.2.2.2
        env.params := by
  obtain ⟨oscs, gains, bd, lbl⟩ := b
  unfold runPhiMode
  simp [hc, hl, stopPhiSynthesis_eq, hb]

lemma runPhiMode_unknown (mdc : DriveMap) (env : AudioEnv) (mode : String)
    (s : PhiState) (hc : env.hasContext = true) (hl : env.hasLowShelf = true)
    (hb : modeBuild mdc env.params env.currentTime s.nextId mode = none) :
    runPhiMode mdc env mode s =
      { s with
        phiOscillators := [], phiAuxNodes := [], phiTimeout := none,
        warnings := s.warnings ++ ["Unknown phi mode: " ++ mode] } := by
  unfold runPhiMode
  simp [hc, hl, stopPhiSynthesis_eq, hb]

lemma applyEnvelope_id (mdc : DriveMap) (g : GainNode) (d : JNum) (c : JVal)
    (now : ℚ) (ct : Option ℚ) : (applyEnvelope mdc g d c now ct).id = g.id := rfl

lemma applyEnvelope_phiScale (mdc : DriveMap) (g : GainNode) (d : JNum)
    (c : JVal) (now : ℚ) (ct : Option ℚ) :
    (applyEnvelope mdc g d c now ct).phiScale = g.phiScale := rfl

lemma applyEnvelope_conns (mdc : DriveMap) (g : GainNode) (d : JNum)
    (c : JVal) (now : ℚ) (ct : Option ℚ) :
    (applyEnvelope mdc g d c now ct).conns = g.conns := rfl

lemma mkVoice_osc_id (mdc : DriveMap) (c r : JVal) (rd now sc : ℚ)
    (des : JNum) (n : Nat) : (mkVoice mdc c r rd now sc des n).1.id = n := rfl

lemma mkVoice_gain_id (mdc : DriveMap) (c r : JVal) (rd now sc : ℚ)
    (des : JNum) (n : Nat) : (mkVoice mdc c r rd now sc des n).2.id = n + 1 := rfl

lemma mkVoice_gain_phiScale (mdc : DriveMap) (c r : JVal) (rd now sc : ℚ)
    (des : JNum) (n : Nat) :
    (mkVoice mdc c r rd now sc des n).2.phiScale = some sc := rfl

lemma mkVoice_osc_freqSets (mdc : DriveMap) (c r : JVal) (rd now sc : ℚ)
    (des : JNum) (n : Nat) :
    (mkVoice mdc c r rd now sc des n).1.freqSets =
      [(pickFreqInRange des r, now)] := rfl

lemma runPhiMode_run_spec (mdc : DriveMap) (env : AudioEnv) (s : PhiState)
    (mode : String) (hc : env.hasContext = true) (hl : env.hasLowShelf = true)
    (hm : mode ∈ phiModeNames) :
    (runPhiMode mdc env mode s).phiOscillators.length = phiOscCount mode ∧
    (runPhiMode mdc env mode s).phiAuxNodes.length = phiAuxCount mode ∧
    (runPhiMode mdc env mode s).nextId =
      s.nextId + phiOscCount mode + phiAuxCount mode ∧
    (∀ o ∈ (runPhiMode mdc env mode s).phiOscillators,
      s.nextId ≤ o.id ∧ o.id < (runPhiMode mdc env mode s).nextId) ∧
    (∀ g ∈ (runPhiMode mdc env mode s).phiAuxNodes,
      s.nextId ≤ g.id ∧ g.id < (runPhiMode mdc env mode s).nextId) ∧
    (runPhiMode mdc env mode s).phiTimeout =
      some ⟨safeDurQ env.params.duration * 1000, phiModeLabel mode⟩ ∧
    (runPhiMode mdc env mode s).audioPlaying = true ∧
    (runPhiMode mdc env mode s).lastParams = some env.params ∧
    (runPhiMode mdc env mode s).dom.status = s.dom.status.map (fun _ =>
      "Running " ++ phiModeLabel mode ++ " for " ++
        toFixed2 (safeDurQ env.params.duration) ++ "s") := by
  have hpos := safeDurQ_pos env.params.duration
  simp only [phiModeNames, List.mem_cons, List.not_mem_nil, or_false] at hm
  rcases hm with rfl | rfl | rfl | rfl | rfl
  · have hb : modeBuild mdc env.params env.currentTime s.nextId "phi_tone" =
        some (buildTone mdc env.params env.currentTime s.nextId) := by
      simp [modeBuild]
    rw [runPhiMode_recognized mdc env _ s hc hl _ hb, finishRun_eq]
    refine ⟨?_, ?_, ?_, ?_, ?_, ?_, ?_, ?_, ?_⟩ <;>
      simp [buildTone, mkVoice_osc_id, mkVoice_gain_id, applyEnvelope_id,
        phiOscCount, phiAuxCount, phiModeLabel, hpos]
    all_goals omega
  · have hb : modeBuild mdc env.params env.currentTime s.nextId "phi_AM" =
        some (buildAM mdc env.params env.currentTime s.nextId) := by
      simp [modeBuild]
    rw [runPhiMode_recognized mdc env _ s hc hl _ hb, finishRun_eq]
    refine ⟨?_, ?_, ?_, ?_, ?_, ?_, ?_, ?_, ?_⟩ <;>
      simp [buildAM, applyEnvelope_id, phiOscCount, phiAuxCount,
        phiModeLabel, hpos]
    all_goals omega
  · have hb : modeBuild mdc env.params env.currentTime s.nextId "phi_FM" =
        some (buildFM mdc env.params env.currentTime s.nextId) := by
      simp [modeBuild]
    rw [runPhiMode_recognized mdc env _ s hc hl _ hb, finishRun_eq]
    refine ⟨?_, ?_, ?_, ?_, ?_, ?_, ?_, ?_, ?_⟩ <;>
      simp [buildFM, applyEnvelope_id, phiOscCount, phiAuxCount,
        phiModeLabel, hpos]
    all_goals omega
  · have hb : modeBuild mdc env.params env.currentTime s.nextId "phi_interval" =
        some (buildInterval mdc env.params env.currentTime s.nextId) := by
      simp [modeBuild]
    rw [runPhiMode_recognized mdc env _ s hc hl _ hb, finishRun_eq]
    refine ⟨?_, ?_, ?_, ?_, ?_, ?_, ?_, ?_, ?_⟩ <;>
      simp [buildInterval, mkVoice_osc_id, mkVoice_gain_id, applyEnvelope_id,
        phiOscCount, phiAuxCount, phiModeLabel, hpos]
    all_goals omega
  · have hb : modeBuild mdc env.params env.currentTime s.nextId "phi_harmonic" =
        some (buildHarmonic mdc env.params env.currentTime s.nextId) := by
      simp [modeBuild]
    rw [runPhiMode_recognized mdc env _ s hc hl _ hb, finishRun_eq]
    refine ⟨?_, ?_, ?_, ?_, ?_, ?_, ?_, ?_, ?_⟩ <;>
      simp [buildHarmonic, mkVoice_osc_id, mkVoice_gain_id, applyEnvelope_id,
        phiOscCount, phiAuxCount, phiModeLabel, hpos]
    all_goals omega

lemma fireTimeout_spec (s : PhiState) (t : PendingTimer)
    (h : s.phiTimeout = some t) :
    (fireTimeout s).phiOscillators = [] ∧
    (fireTimeout s).phiAuxNodes = [] ∧
    (fireTimeout s).audioPlaying = false ∧
    (fireTimeout s).dom.status =
      s.dom.status.map (fun _ => t.label ++ " complete") := by
  unfold fireTimeout
  rw [h]
  simp [stopPhiSynthesis_eq]

/-- C1: for every recognized mode name and every `SynthParams`, when the
rendering engine and its output filter are available, after `runPhiMode`
the oscillator registry holds exactly the mode's generator count: 1 for
`'phi_tone'`, 2 for `'phi_AM'`, 2 for `'phi_FM'`, 4 for `'phi_interval'`,
8 for `'phi_harmonic'`. -/
theorem C1_registry_counts (mdc : DriveMap) (env : AudioEnv) (s : PhiState)
    (mode : String) (hc : env.hasContext = true) (hl : env.hasLowShelf = true)
    (hm : mode ∈ phiModeNames) :
    (runPhiMode mdc env mode s).phiOscillators.length = phiOscCount mode ∧
    phiOscCount "phi_tone" = 1 ∧ phiOscCount "phi_AM" = 2 ∧
    phiOscCount "phi_FM" = 2 ∧ phiOscCount "phi_interval" = 4 ∧
    phiOscCount "phi_harmonic" = 8 := by
  exact ⟨(runPhiMode_run_spec mdc env s mode hc hl hm).1, rfl, rfl, rfl, rfl, rfl⟩

/-- Witness for C1 at a concrete available environment and the
`'phi_harmonic'` mode. -/
theorem C1_registry_counts_witness :
    (runPhiMode mdcId env0 "phi_harmonic" st0).phiOscillators.length =
      phiOscCount "phi_harmonic" ∧
    phiOscCount "phi_tone" = 1 ∧ phiOscCount "phi_AM" = 2 ∧
    phiOscCount "phi_FM" = 2 ∧ phiOscCount "phi_interval" = 4 ∧
    phiOscCount "phi_harmonic" = 8 :=
  C1_registry_counts mdcId env0 st0 "phi_harmonic" rfl rfl
    (by simp [phiModeNames])

/-- C2: two back-to-back `runPhiMode` calls with recognized modes and no
intervening explicit stop leave the registries holding exactly the second
run's nodes: the counts match the second mode, every registered node was
created during the second call (its engine id is at least the id counter
the second call started from), and every first-run node's id lies below
that counter, so none of the first run's nodes survives. -/
theorem C2_no_accumulation (mdc : DriveMap) (env1 env2 : AudioEnv)
    (s : PhiState) (m1 m2 : String)
    (hc1 : env1.hasContext = true) (hl1 : env1.hasLowShelf = true)
    (hc2 : env2.hasContext = true) (hl2 : env2.hasLowShelf = true)
    (hm1 : m1 ∈ phiModeNames) (hm2 : m2 ∈ phiModeNames) :
    (runPhiMode mdc env2 m2 (runPhiMode mdc env1 m1 s)).phiOscillators.length =
      phiOscCount m2 ∧
    (runPhiMode mdc env2 m2 (runPhiMode mdc env1 m1 s)).phiAuxNodes.length =
      phiAuxCount m2 ∧
    (∀ o ∈ (runPhiMode mdc env1 m1 s).phiOscillators,
      o.id < (runPhiMode mdc env1 m1 s).nextId) ∧
    (∀ g ∈ (runPhiMode mdc env1 m1 s).phiAuxNodes,
      g.id < (runPhiMode mdc env1 m1 s).nextId) ∧
    (∀ o ∈ (runPhiMode mdc env2 m2 (runPhiMode mdc env1 m1 s)).phiOscillators,
      (runPhiMode mdc env1 m1 s).nextId ≤ o.id) ∧
    (∀ g ∈ (runPhiMode mdc env2 m2 (runPhiMode mdc env1 m1 s)).phiAuxNodes,
      (runPhiMode mdc env1 m1 s).nextId ≤ g.id) := by
  obtain ⟨-, -, -, ho1, hg1, -, -, -, -⟩ :=
    runPhiMode_run_spec mdc env1 s m1 hc1 hl1 hm1
  obtain ⟨l2, a2, -, ho2, hg2, -, -, -, -⟩ :=
    runPhiMode_run_spec mdc env2 (runPhiMode mdc env1 m1 s) m2 hc2 hl2 hm2
  exact ⟨l2, a2, fun o ho => (ho1 o ho).2, fun g hg => (hg1 g hg).2,
    fun o ho => (ho2 o ho).1, fun g hg => (hg2 g hg).1⟩

/-- Witness for C2: a Tone run followed by an AM run on a concrete
state. -/
theorem C2_no_accumulation_witness :
    (runPhiMode mdcId env0 "phi_AM" (runPhiMode mdcId env0 "phi_tone" st0)).phiOscillators.length =
      phiOscCount "phi_AM" ∧
    (runPhiMode mdcId env0 "phi_AM" (runPhiMode mdcId env0 "phi_tone" st0)).phiAuxNodes.length =
      phiAuxCount "phi_AM" ∧
    (∀ o ∈ (runPhiMode mdcId env0 "phi_tone" st0).phiOscillators,
      o.id < (runPhiMode mdcId env0 "phi_tone" st0).nextId) ∧
    (∀ g ∈ (runPhiMode mdcId env0 "phi_tone" st0).phiAuxNodes,
      g.id < (runPhiMode mdcId env0 "phi_tone" st0).nextId) ∧
    (∀ o ∈ (runPhiMode mdcId env0 "phi_AM" (runPhiMode mdcId env0 "phi_tone" st0)).phiOscillators,
      (runPhiMode mdcId env0 "phi_tone" st0).nextId ≤ o.id) ∧
    (∀ g ∈ (runPhiMode mdcId env0 "phi_AM" (runPhiMode mdcId env0 "phi_tone" st0)).phiAuxNodes,
      (runPhiMode mdcId env0 "phi_tone" st0).nextId ≤ g.id) :=
  C2_no_accumulation mdcId env0 env0 st0 "phi_tone" "phi_AM" rfl rfl rfl rfl
    (by simp [phiModeNames]) (by simp [phiModeNames])

/-- C4: `stopPhiSynthesis` never raises (it is total: every engine call
is wrapped in a catch, including nodes whose `stop`/`disconnect` throw —
the quantification over `s` covers registries containing such nodes);
after any call both registries are empty and the pending timer is
cleared, and a second call is a no-op. -/
theorem C4_stop_safe (s : PhiState) :
    (stopPhiSynthesis s).phiOscillators = [] ∧
    (stopPhiSynthesis s).phiAuxNodes = [] ∧
    (stopPhiSynthesis s).phiTimeout = none ∧
    stopPhiSynthesis (stopPhiSynthesis s) = stopPhiSynthesis s := by
  rw [stopPhiSynthesis_eq s, stopPhiSynthesis_eq]
  exact ⟨rfl, rfl, rfl, rfl⟩

/-- C6: after a successful `runPhiMode` with a recognized mode and a
valid duration `d`, the auto-stop timer is armed for exactly `d` seconds
(`d * 1000` ms), and firing it empties both registries, clears the
playing flag, and writes "<label> complete" to the status text. -/
theorem C6_autostop (mdc : DriveMap) (env : AudioEnv) (s : PhiState)
    (mode : String) (d : ℚ) (t : String)
    (hc : env.hasContext = true) (hl : env.hasLowShelf = true)
    (hm : mode ∈ phiModeNames) (hd : env.params.duration = .fin d)
    (hd0 : 0 < d) (hst : s.dom.status = some t) :
    (runPhiMode mdc env mode s).phiTimeout =
      some ⟨d * 1000, phiModeLabel mode⟩ ∧
    (fireTimeout (runPhiMode mdc env mode s)).phiOscillators = [] ∧
    (fireTimeout (runPhiMode mdc env mode s)).phiAuxNodes = [] ∧
    (fireTimeout (runPhiMode mdc env mode s)).audioPlaying = false ∧
    (fireTimeout (runPhiMode mdc env mode s)).dom.status =
      some (phiModeLabel mode ++ " complete") := by
  obtain ⟨-, -, -, -, -, hto, -, -, hstat⟩ :=
    runPhiMode_run_spec mdc env s mode hc hl hm
  have hsd : safeDurQ env.params.duration = d := by
    rw [hd]; simp [safeDurQ, hd0]
  rw [hsd] at hto
  obtain ⟨f1, f2, f3, f4⟩ := fireTimeout_spec _ _ hto
  refine ⟨hto, f1, f2, f3, ?_⟩
  rw [f4, hstat, hst]
  rfl

/-- Witness for C6 at the concrete environment (`duration = 2`) and the
`'phi_tone'` mode. -/
theorem C6_autostop_witness :
    (runPhiMode mdcId env0 "phi_tone" st0).phiTimeout =
      some ⟨(2 : ℚ) * 1000, phiModeLabel "phi_tone"⟩ ∧
    (fireTimeout (runPhiMode mdcId env0 "phi_tone" st0)).phiOscillators = [] ∧
    (fireTimeout (runPhiMode mdcId env0 "phi_tone" st0)).phiAuxNodes = [] ∧
    (fireTimeout (runPhiMode mdcId env0 "phi_tone" st0)).audioPlaying = false ∧
    (fireTimeout (runPhiMode mdcId env0 "phi_tone" st0)).dom.status =
      some (phiModeLabel "phi_tone" ++ " complete") :=
  C6_autostop mdcId env0 st0 "phi_tone" 2 "" rfl rfl
    (by simp [phiModeNames]) rfl (by norm_num) rfl

/-- C3 (amended): for an unrecognized mode with the engine and filter
available, `runPhiMode` logs a warning and returns without starting
anything — no alert, no DOM/status write, playing flag and `lastParams`
untouched — but, because teardown precedes mode dispatch, previously
registered nodes are removed and any pending auto-stop timer is
cancelled; when the call happens while idle (empty registries, no timer)
the state is exactly preserved apart from the warning. -/
theorem C3_unknown_mode_amended (mdc : DriveMap) (env : AudioEnv)
    (mode : String) (s : PhiState) (hc : env.hasContext = true)
    (hl : env.hasLowShelf = true) (hm : mode ∉ phiModeNames) :
    (runPhiMode mdc env mode s).warnings =
      s.warnings ++ ["Unknown phi mode: " ++ mode] ∧
    (runPhiMode mdc env mode s).alerts = s.alerts ∧
    (runPhiMode mdc env mode s).dom = s.dom ∧
    (runPhiMode mdc env mode s).audioPlaying = s.audioPlaying ∧
    (runPhiMode mdc env mode s).lastParams = s.lastParams ∧
    (runPhiMode mdc env mode s).phiOscillators = [] ∧
    (runPhiMode mdc env mode s).phiAuxNodes = [] ∧
    (runPhiMode mdc env mode s).phiTimeout = none ∧
    (s.phiOscillators = [] → s.phiAuxNodes = [] → s.phiTimeout = none →
      runPhiMode mdc env mode s =
        { s with warnings := s.warnings ++ ["Unknown phi mode: " ++ mode] }) := by
  have hb : modeBuild mdc env.params env.currentTime s.nextId mode = none := by
    simp only [phiModeNames, List.mem_cons, List.not_mem_nil, or_false] at hm
    push_neg at hm
    obtain ⟨h1, h2, h3, h4, h5⟩ := hm
    simp [modeBuild, h1, h2, h3, h4, h5]
  rw [runPhiMode_unknown mdc env mode s hc hl hb]
  refine ⟨rfl, rfl, rfl, rfl, rfl, rfl, rfl, rfl, ?_⟩
  intro e1 e2 e3
  obtain ⟨oscs, aux, tmo, lp, dom, ap, ni, al, wa, lg⟩ := s
  simp only at e1 e2 e3
  subst e1; subst e2; subst e3
  rfl

/-- Witness for C3's amended statement at mode `'phi_bogus'` on the idle
state. -/
theorem C3_unknown_mode_witness :
    (runPhiMode mdcId env0 "phi_bogus" st0).warnings =
      st0.warnings ++ ["Unknown phi mode: " ++ "phi_bogus"] ∧
    (runPhiMode mdcId env0 "phi_bogus" st0).alerts = st0.alerts ∧
    (runPhiMode mdcId env0 "phi_bogus" st0).dom = st0.dom ∧
    (runPhiMode mdcId env0 "phi_bogus" st0).audioPlaying = st0.audioPlaying ∧
    (runPhiMode mdcId env0 "phi_bogus" st0).lastParams = st0.lastParams ∧
    (runPhiMode mdcId env0 "phi_bogus" st0).phiOscillators = [] ∧
    (runPhiMode mdcId env0 "phi_bogus" st0).phiAuxNodes = [] ∧
    (runPhiMode mdcId env0 "phi_bogus" st0).phiTimeout = none ∧
    (st0.phiOscillators = [] → st0.phiAuxNodes = [] → st0.phiTimeout = none →
      runPhiMode mdcId env0 "phi_bogus" st0 =
        { st0 with warnings := st0.warnings ++ ["Unknown phi mode: " ++ "phi_bogus"] }) :=
  C3_unknown_mode_amended mdcId env0 "phi_bogus" st0 rfl rfl
    (by simp [phiModeNames])

/-- Counterexample to C3 as stated: with a prior run still live (one
registered oscillator, armed timer) and the engine available, calling
`runPhiMode` with the unknown mode `'phi_bogus'` does change the pre-call
state — the registered node is removed and the pending timer is
cancelled by the teardown that precedes mode dispatch. -/
theorem C3_unknown_mode_counterexample :
    stRunning.phiOscillators.length = 1 ∧
    stRunning.phiTimeout.isSome = true ∧
    (runPhiMode mdcId env0 "phi_bogus" stRunning).phiOscillators.length = 0 ∧
    (runPhiMode mdcId env0 "phi_bogus" stRunning).phiTimeout.isSome = false :=
  ⟨rfl, rfl, rfl, rfl⟩

/-- C5: `applyEnvelope` on a gain node with numeric per-voice scale `sc`
and a clock context schedules exactly: a cancel from `start`, value 0 at
`start`, a linear ramp to `mapDriveCurve(curve,1)*sc` at `start+attack`,
when `sustainTime > 0` a linear ramp to `mapDriveCurve(curve,0.5)*sc` at
`start+attack+sustainTime`, and a linear ramp to 0 at
`start+safeDuration`, with `start = max(now, ctx.currentTime)`,
`safeDuration = duration` if finite positive else 3,
`attack = clamp(0.2*safeDuration, 0.05, 0.5)` and
`sustainTime = max(safeDuration - 2*attack, 0)`; in particular
`attack = 0.5` at duration 100 and `attack = 0.05`, `sustainTime = 0` at
duration 0.1. -/
theorem C5_envelope (mdc : DriveMap) (g : GainNode) (dur : JNum) (c : JVal)
    (now ct sc : ℚ) (hsc : g.phiScale = some sc) :
    (applyEnvelope mdc g dur c now (some ct)).gainEvents = g.gainEvents ++
      ([GainEvent.cancelFrom (max now ct),
        GainEvent.setValue (.fin 0) (max now ct),
        GainEvent.linearRamp (.fin (mdc c 1 * sc))
          (max now ct + attackOf (safeDurQ dur))]
       ++ (if 0 < sustainOf (safeDurQ dur) then
            [GainEvent.linearRamp (.fin (mdc c 0.5 * sc))
              (max now ct + attackOf (safeDurQ dur) + sustainOf (safeDurQ dur))]
          else [])
       ++ [GainEvent.linearRamp (.fin 0) (max now ct + safeDurQ dur)]) ∧
    attackOf (safeDurQ dur) = max 0.05 (min (safeDurQ dur * 0.2) 0.5) ∧
    sustainOf (safeDurQ dur) =
      max (safeDurQ dur - attackOf (safeDurQ dur) * 2) 0 ∧
    attackOf (safeDurQ (.fin 100)) = 0.5 ∧
    attackOf (safeDurQ (.fin (1 / 10))) = 0.05 ∧
    sustainOf (safeDurQ (.fin (1 / 10))) = 0 := by
  refine ⟨?_, rfl, rfl, ?_, ?_, ?_⟩
  · simp [applyEnvelope, hsc]
  · norm_num [attackOf, safeDurQ]
  · norm_num [attackOf, safeDurQ]
  · norm_num [sustainOf, attackOf, safeDurQ]

/-- Witness for C5 at the identity drive map, a concrete gain node with
scale 1, duration 2 and clock times 0. -/
theorem C5_envelope_witness :
    (applyEnvelope mdcId gain0w (.fin 2) (.str "linear") 0 (some 0)).gainEvents =
      gain0w.gainEvents ++
      ([GainEvent.cancelFrom (max 0 0),
        GainEvent.setValue (.fin 0) (max 0 0),
        GainEvent.linearRamp (.fin (mdcId (.str "linear") 1 * 1))
          (max 0 0 + attackOf (safeDurQ (.fin 2)))]
       ++ (if 0 < sustainOf (safeDurQ (.fin 2)) then
            [GainEvent.linearRamp (.fin (mdcId (.str "linear") 0.5 * 1))
              (max 0 0 + attackOf (safeDurQ (.fin 2)) + sustainOf (safeDurQ (.fin 2)))]
          else [])
       ++ [GainEvent.linearRamp (.fin 0) (max 0 0 + safeDurQ (.fin 2))]) ∧
    attackOf (safeDurQ (.fin 2)) = max 0.05 (min (safeDurQ (.fin 2) * 0.2) 0.5) ∧
    sustainOf (safeDurQ (.fin 2)) =
      max (safeDurQ (.fin 2) - attackOf (safeDurQ (.fin 2)) * 2) 0 ∧
    attackOf (safeDurQ (.fin 100)) = 0.5 ∧
    attackOf (safeDurQ (.fin (1 / 10))) = 0.05 ∧
    sustainOf (safeDurQ (.fin (1 / 10))) = 0 :=
  C5_envelope mdcId gain0w (.fin 2) (.str "linear") 0 0 1 rfl

/-- C7 (amended): for valid `baseFreq = b > 0` and no caller-supplied
`freqRange`, `runPhiMode('phi_AM')` clamps both desired frequencies into
the default range `[b, b*Φ]`: the carrier's desired `b` stays `b`, and
the modulator's desired `b/Φ` — lying below the range floor — is clamped
up to `b` as well (not `b/Φ` as the claim states); the modulator is
routed through a depth gain set to `mapDriveCurve(curve,0.6)*carrierFreq*
0.25` into the carrier's frequency input, and the carrier's envelope gain
carries scale `mapDriveCurve(curve,0.8)*0.6`. -/
theorem C7_am_topology_amended (mdc : DriveMap) (env : AudioEnv)
    (s : PhiState) (b : ℚ) (hc : env.hasContext = true)
    (hl : env.hasLowShelf = true) (hbf : env.params.baseFreq = .fin b)
    (hb0 : 0 < b) (hfr : truthy env.params.freqRange = false) :
    (runPhiMode mdc env "phi_AM" s).phiOscillators.map (·.freqSets) =
      [[(.fin b, env.currentTime)], [(.fin b, env.currentTime)]] ∧
    (runPhiMode mdc env "phi_AM" s).phiOscillators.map (·.conns) =
      [[.gainNode (s.nextId + 2)], [.gainNode (s.nextId + 3)]] ∧
    (runPhiMode mdc env "phi_AM" s).phiAuxNodes.map (·.phiScale) =
      [some (mdc env.params.driveCurve 0.8 * 0.6), none] ∧
    (runPhiMode mdc env "phi_AM" s).phiAuxNodes.map (·.conns) =
      [[.lowShelf], [.oscFrequency s.nextId]] ∧
    ((runPhiMode mdc env "phi_AM" s).phiAuxNodes.map (·.gainEvents))[1]? =
      some [GainEvent.setValue
        (.fin (mdc env.params.driveCurve 0.6 * b * 0.25)) env.currentTime] := by
  have hb' : modeBuild mdc env.params env.currentTime s.nextId "phi_AM" =
      some (buildAM mdc env.params env.currentTime s.nextId) := by
    simp [modeBuild]
  rw [runPhiMode_recognized mdc env _ s hc hl _ hb', finishRun_eq]
  have hφ1 : (1 : ℚ) < PHI := by norm_num [PHI]
  have hPne : PHI ≠ 0 := by norm_num [PHI]
  have hsafe : jSafeBase env.params.baseFreq = .fin b := by
    simp [jSafeBase, JNum.gtZero, hbf, hb0]
  have h1 : b / PHI < b := div_lt_self hb0 hφ1
  have h2 : b ≤ b * PHI := by nlinarith
  have hm1 : max b (min (b * PHI) b) = b := by
    rw [min_eq_right h2, max_self]
  have hm2 : max b (min (b * PHI) (b / PHI)) = b := by
    rw [min_eq_right (by linarith), max_eq_left h1.le]
  refine ⟨?_, ?_, ?_, ?_, ?_⟩ <;>
    simp [buildAM, hsafe, rangeOr, hfr, pickFreqInRange, JNum.mul, JNum.div,
      hPne, JNum.jmax, JNum.jmin, hm1, hm2, applyEnvelope_phiScale,
      applyEnvelope_conns]

/-- Witness for C7's amended statement at the identity drive map,
`baseFreq = 220`, no supplied range. -/
theorem C7_am_topology_witness :
    (runPhiMode mdcId env0 "phi_AM" st0).phiOscillators.map (·.freqSets) =
      [[(.fin 220, env0.currentTime)], [(.fin 220, env0.currentTime)]] ∧
    (runPhiMode mdcId env0 "phi_AM" st0).phiOscillators.map (·.conns) =
      [[.gainNode (st0.nextId + 2)], [.gainNode (st0.nextId + 3)]] ∧
    (runPhiMode mdcId env0 "phi_AM" st0).phiAuxNodes.map (·.phiScale) =
      [some (mdcId env0.params.driveCurve 0.8 * 0.6), none] ∧
    (runPhiMode mdcId env0 "phi_AM" st0).phiAuxNodes.map (·.conns) =
      [[.lowShelf], [.oscFrequency st0.nextId]] ∧
    ((runPhiMode mdcId env0 "phi_AM" st0).phiAuxNodes.map (·.gainEvents))[1]? =
      some [GainEvent.setValue
        (.fin (mdcId env0.params.driveCurve 0.6 * 220 * 0.25))
        env0.currentTime] :=
  C7_am_topology_amended mdcId env0 st0 220 rfl rfl rfl (by norm_num) rfl

/-- Counterexample to C7 as stated: at `baseFreq = 220` with no supplied
range, the modulator oscillator's scheduled frequency is `220` (the
desired `220/Φ` clamped up to the default range's floor), and `220` is
not `220/Φ`. -/
theorem C7_am_topology_counterexample :
    ((runPhiMode mdcId env0 "phi_AM" st0).phiOscillators.map
      (·.freqSets))[1]? = some [(.fin 220, 0)] ∧
    (220 : ℚ) ≠ 220 / PHI := by
  constructor
  · have hb' : modeBuild mdcId env0.params env0.currentTime st0.nextId "phi_AM" =
        some (buildAM mdcId env0.params env0.currentTime st0.nextId) := by
      simp [modeBuild]
    rw [runPhiMode_recognized mdcId env0 _ st0 rfl rfl _ hb', finishRun_eq]
    simp [buildAM, jSafeBase, JNum.gtZero, env0, params0, st0, rangeOr, truthy,
      pickFreqInRange, JNum.mul, JNum.div, JNum.jmax, JNum.jmin]
    norm_num [PHI, min_def, max_def]
  · norm_num [PHI]

lemma harmonicScale_succ_lt (mdc : DriveMap) (c : JVal) (i : ℕ) (hi : 1 ≤ i)
    (hmono : ∀ x y : ℚ, 0 < x → x ≤ y → mdc c x ≤ mdc c y)
    (hpos : ∀ x : ℚ, 0 < x → 0 < mdc c x) :
    harmonicScale mdc c (i + 1) < harmonicScale mdc c i := by
  have hP0 : (0 : ℚ) < PHI := by norm_num [PHI]
  have hP1 : (1 : ℚ) < PHI := by norm_num [PHI]
  have hi0 : (0 : ℚ) < (i : ℚ) := by exact_mod_cast Nat.lt_of_lt_of_le Nat.zero_lt_one hi
  have hxy : (1 : ℚ) / ((i : ℚ) + 1) ≤ 1 / (i : ℚ) := by
    apply one_div_le_one_div_of_le hi0
    linarith
  have hx0 : (0 : ℚ) < 1 / ((i : ℚ) + 1) := by positivity
  have ha := hpos _ hx0
  have haA := hmono _ _ hx0 hxy
  have hpow : PHI ^ i = PHI ^ (i - 1) * PHI := by
    conv_lhs => rw [show i = (i - 1) + 1 from (Nat.succ_pred_eq_of_pos hi).symm]
    rw [pow_succ]
  have hwpos : (0 : ℚ) < PHI ^ (i - 1) := pow_pos hP0 _
  have hww : 1 / PHI ^ i < 1 / PHI ^ (i - 1) := by
    rw [hpow]
    apply one_div_lt_one_div_of_lt hwpos
    nlinarith
  have hw'pos : (0 : ℚ) < 1 / PHI ^ i := by positivity
  unfold harmonicScale
  push_cast [Nat.add_sub_cancel]
  have k1 : mdc c (1 / ((i : ℚ) + 1)) * (1 / PHI ^ i) <
      mdc c (1 / ((i : ℚ) + 1)) * (1 / PHI ^ (i - 1)) :=
    mul_lt_mul_of_pos_left hww ha
  have k2 : mdc c (1 / ((i : ℚ) + 1)) * (1 / PHI ^ (i - 1)) ≤
      mdc c (1 / (i : ℚ)) * (1 / PHI ^ (i - 1)) :=
    mul_le_mul_of_nonneg_right haA (by positivity)
  nlinarith [k1, k2]

/-- C8: in Harmonic Stack mode the per-voice amplitude scales registered
on the eight envelope gains are `harmonicScale i = mapDriveCurve(curve,
1/i) * Φ^-(i-1) * 0.5` for `i = 1..8`, and — for a drive map that is
monotone and positive on positive positions, as a response-shaping
amplitude multiplier is — the scale is strictly decreasing in `i`. -/
theorem C8_harmonic_decreasing (mdc : DriveMap) (env : AudioEnv)
    (s : PhiState) (hc : env.hasContext = true) (hl : env.hasLowShelf = true)
    (hmono : ∀ x y : ℚ, 0 < x → x ≤ y →
      mdc env.params.driveCurve x ≤ mdc env.params.driveCurve y)
    (hpos : ∀ x : ℚ, 0 < x → 0 < mdc env.params.driveCurve x) :
    (runPhiMode mdc env "phi_harmonic" s).phiAuxNodes.map (·.phiScale) =
      [some (harmonicScale mdc env.params.driveCurve 1),
       some (harmonicScale mdc env.params.driveCurve 2),
       some (harmonicScale mdc env.params.driveCurve 3),
       some (harmonicScale mdc env.params.driveCurve 4),
       some (harmonicScale mdc env.params.driveCurve 5),
       some (harmonicScale mdc env.params.driveCurve 6),
       some (harmonicScale mdc env.params.driveCurve 7),
       some (harmonicScale mdc env.params.driveCurve 8)] ∧
    harmonicScale mdc env.params.driveCurve 2 <
      harmonicScale mdc env.params.driveCurve 1 ∧
    harmonicScale mdc env.params.driveCurve 3 <
      harmonicScale mdc env.params.driveCurve 2 ∧
    harmonicScale mdc env.params.driveCurve 4 <
      harmonicScale mdc env.params.driveCurve 3 ∧
    harmonicScale mdc env.params.driveCurve 5 <
      harmonicScale mdc env.params.driveCurve 4 ∧
    harmonicScale mdc env.params.driveCurve 6 <
      harmonicScale mdc env.params.driveCurve 5 ∧
    harmonicScale mdc env.params.driveCurve 7 <
      harmonicScale mdc env.params.driveCurve 6 ∧
    harmonicScale mdc env.params.driveCurve 8 <
      harmonicScale mdc env.params.driveCurve 7 := by
  constructor
  · have hb' : modeBuild mdc env.params env.currentTime s.nextId "phi_harmonic" =
        some (buildHarmonic mdc env.params env.currentTime s.nextId) := by
      simp [modeBuild]
    rw [runPhiMode_recognized mdc env _ s hc hl _ hb', finishRun_eq]
    simp [buildHarmonic, mkVoice_gain_phiScale]
  refine ⟨?_, ?_, ?_, ?_, ?_, ?_, ?_⟩
  · exact harmonicScale_succ_lt mdc env.params.driveCurve 1 (by norm_num) hmono hpos
  · exact harmonicScale_succ_lt mdc env.params.driveCurve 2 (by norm_num) hmono hpos
  · exact harmonicScale_succ_lt mdc env.params.driveCurve 3 (by norm_num) hmono hpos
  · exact harmonicScale_succ_lt mdc env.params.driveCurve 4 (by norm_num) hmono hpos
  · exact harmonicScale_succ_lt mdc env.params.driveCurve 5 (by norm_num) hmono hpos
  · exact harmonicScale_succ_lt mdc env.params.driveCurve 6 (by norm_num) hmono hpos
  · exact harmonicScale_succ_lt mdc env.params.driveCurve 7 (by norm_num) hmono hpos

/-- Witness for C8 at the identity drive map (monotone and positive on
positive positions) and the concrete available environment. -/
theorem C8_harmonic_decreasing_witness :
    (runPhiMode mdcId env0 "phi_harmonic" st0).phiAuxNodes.map (·.phiScale) =
      [some (harmonicScale mdcId env0.params.driveCurve 1),
       some (harmonicScale mdcId env0.params.driveCurve 2),
       some (harmonicScale mdcId env0.params.driveCurve 3),
       some (harmonicScale mdcId env0.params.driveCurve 4),
       some (harmonicScale mdcId env0.params.driveCurve 5),
       some (harmonicScale mdcId env0.params.driveCurve 6),
       some (harmonicScale mdcId env0.params.driveCurve 7),
       some (harmonicScale mdcId env0.params.driveCurve 8)] ∧
    harmonicScale mdcId env0.params.driveCurve 2 <
      harmonicScale mdcId env0.params.driveCurve 1 ∧
    harmonicScale mdcId env0.params.driveCurve 3 <
      harmonicScale mdcId env0.params.driveCurve 2 ∧
    harmonicScale mdcId env0.params.driveCurve 4 <
      harmonicScale mdcId env0.params.driveCurve 3 ∧
    harmonicScale mdcId env0.params.driveCurve 5 <
      harmonicScale mdcId env0.params.driveCurve 4 ∧
    harmonicScale mdcId env0.params.driveCurve 6 <
      harmonicScale mdcId env0.params.driveCurve 5 ∧
    harmonicScale mdcId env0.params.driveCurve 7 <
      harmonicScale mdcId env0.params.driveCurve 6 ∧
    harmonicScale mdcId env0.params.driveCurve 8 <
      harmonicScale mdcId env0.params.driveCurve 7 :=
  C8_harmonic_decreasing mdcId env0 st0 rfl rfl
    (fun _ _ _ h => h) (fun _ h => h)

/-- C9 (amended): `diagnosticParamsLog` writes the one-line summary to
the status text (when the element exists) rendering the frequency range
as `"N/A"` whenever the current `freqRange` is not a two-element array,
and as `"lo-hi"` (the two elements coerced to strings) whenever it is a
two-element array — numeric-ness of the elements is not checked. -/
theorem C9_diagnostic_range_amended (env : AudioEnv) (s : PhiState)
    (t : String) (fr a b : JVal) (hst : s.dom.status = some t)
    (hfr : ∀ x y : JVal, fr ≠ .arr [x, y]) :
    (diagnosticParamsLog env s).dom.status = some (diagLine env.params) ∧
    rangeText (.arr [a, b]) = jvalStr a ++ "-" ++ jvalStr b ∧
    rangeText fr = "N/A" := by
  refine ⟨?_, rfl, ?_⟩
  · simp [diagnosticParamsLog, hst]
  · match fr, hfr with
    | .num n, _ => rfl
    | .str s, _ => rfl
    | .undef, _ => rfl
    | .arr [], _ => rfl
    | .arr [x], _ => rfl
    | .arr [x, y], hfr => exact absurd rfl (hfr x y)
    | .arr (x :: y :: z :: t), _ => rfl

/-- Witness for C9's amended statement on the concrete state with a
status element and a non-array `freqRange`. -/
theorem C9_diagnostic_range_witness :
    (diagnosticParamsLog env0 st0).dom.status = some (diagLine env0.params) ∧
    rangeText (.arr [.str "a", .str "b"]) =
      jvalStr (.str "a") ++ "-" ++ jvalStr (.str "b") ∧
    rangeText .undef = "N/A" :=
  C9_diagnostic_range_amended env0 st0 "" .undef (.str "a") (.str "b") rfl
    (fun x y h => by cases h)

/-- Counterexample to C9 as stated: `freqRange = ["a","b"]` is a
two-element array that is not a numeric pair, yet the summary renders it
as `"a-b"`, not `"N/A"` — the code checks only `Array.isArray` and
`length === 2`. -/
theorem C9_diagnostic_range_counterexample :
    env9.params.freqRange = .arr [.str "a", .str "b"] ∧
    rangeText env9.params.freqRange = "a-b" ∧
    (diagnosticParamsLog env9 st0).dom.status =
      some ("Diagnostic → base: 220 Hz | curve: linear | range: a-b | duration: 2 s") ∧
    "a-b" ≠ "N/A" := by
  refine ⟨rfl, rfl, ?_, by decide⟩
  simp [diagnosticParamsLog, st0, dom0, diagLine, env9, params9, params0,
    rangeText, jvalStr, jnumStr, truthy, JNum.isFinite]
  rfl

/-- C10: whenever a `lastParams` snapshot exists, `restoreLastParams`
writes each parameter input field independently and only when the
snapshotted value is valid for that field — `baseFreq`/`duration` only if
finite, `driveCurve` only if truthy, `freqRange` only if an array (each
also requires the field element to exist) — and the status text is set to
"Φ parameters restored" even when no field was written. -/
theorem C10_restore_fields (s : PhiState) (p : SynthParams)
    (hlp : s.lastParams = some p) :
    (restoreLastParams s).dom.baseField =
      (if s.dom.baseField.isSome && p.baseFreq.isFinite then
        some (jnumStr p.baseFreq) else s.dom.baseField) ∧
    (restoreLastParams s).dom.durationField =
      (if s.dom.durationField.isSome && p.duration.isFinite then
        some (jnumStr p.duration) else s.dom.durationField) ∧
    (restoreLastParams s).dom.driveCurveField =
      (if s.dom.driveCurveField.isSome && truthy p.driveCurve then
        some (jvalStr p.driveCurve) else s.dom.driveCurveField) ∧
    (restoreLastParams s).dom.freqRangeField =
      (if s.dom.freqRangeField.isSome && isArrayJ p.freqRange then
        some (fmtRange p.freqRange) else s.dom.freqRangeField) ∧
    (restoreLastParams s).dom.status =
      s.dom.status.map (fun _ => "Φ parameters restored") := by
  obtain ⟨oscs, aux, tmo, lp, ⟨st, sb, rb, bf, df, dc, frf⟩, ap, ni, al, wa, lg⟩ := s
  simp only at hlp
  subst hlp
  simp only [restoreLastParams]
  split_ifs <;> simp_all

/-- Witness for C10 on the concrete snapshot state (all fields present,
all snapshot values valid). -/
theorem C10_restore_fields_witness :
    (restoreLastParams stLP).dom.baseField =
      (if stLP.dom.baseField.isSome && params0.baseFreq.isFinite then
        some (jnumStr params0.baseFreq) else stLP.dom.baseField) ∧
    (restoreLastParams stLP).dom.durationField =
      (if stLP.dom.durationField.isSome && params0.duration.isFinite then
        some (jnumStr params0.duration) else stLP.dom.durationField) ∧
    (restoreLastParams stLP).dom.driveCurveField =
      (if stLP.dom.driveCurveField.isSome && truthy params0.driveCurve then
        some (jvalStr params0.driveCurve) else stLP.dom.driveCurveField) ∧
    (restoreLastParams stLP).dom.freqRangeField =
      (if stLP.dom.freqRangeField.isSome && isArrayJ params0.freqRange then
        some (fmtRange params0.freqRange) else stLP.dom.freqRangeField) ∧
    (restoreLastParams stLP).dom.status =
      stLP.dom.status.map (fun _ => "Φ parameters restored") :=
  C10_restore_fields stLP params0 rfl
